import Mathlib

/-!
# fty-common-logging: the stream-style logging front end

A shallow embedding of `include/fty-log.h`, `src/log.cpp` and the parts of
`src/logger.cpp` they call, followed by theorems about the embedding.

* `Logger.addText`, `Logger.shl` embed the lambda `addText` and
  `Logger::operator<<` (include/fty-log.h, lines 89-142).
* `logIf` embeds the macro `_log(level, condition)` together with the chain
  that follows it and the destructor that ends the statement.
* `LoggerCallback.call`, `Logger.setCallback`, `Ftylog.insertLog` embed
  `src/log.cpp` and `Ftylog::insertLog` of `src/logger.cpp`.
* `Ftylog.setLogLevelTrace` to `Ftylog.setLogLevelOff`, `Logger.isSupports` and
  `Ftylog.Impl.setLogLevelFromEnvDefinite` embed the level handling of
  `src/logger.cpp`.
* `MyStruct` embeds the struct of the test file `test/log.cpp`.

Strings are Lean strings; `int` values are integers (`Int`); stateful code
passes a `World` explicitly.
-/

set_option autoImplicit false

/-! ## Data model -/

/-- The enum `Ftylog::Level` (fty_logger.h, lines 121-130), in declaration order. -/
inductive Level where
  | Off
  | Fatal
  | Error
  | Warn
  | Info
  | Debug
  | Trace
deriving DecidableEq, Repr

/-- The struct `Logger::Log`: the record handed to the dispatch callback. -/
structure Log where
  level : Level
  file : String
  line : Int
  func : String
  content : String
deriving DecidableEq, Repr

/-- The class `Logger`: the record under construction and the flag `m_inswhite`. -/
structure Logger where
  m_log : Log
  m_inswhite : Bool
deriving DecidableEq, Repr

/-- Values that `std::stringstream` accepts through its own `operator<<`: the
element, key and mapped types of the containers handled by the `is_map` and
`is_list` branches. -/
inductive StreamValue where
  /-- A `std::string` (or C string). -/
  | string (s : String)
  /-- A `bool`. -/
  | bool (b : Bool)
  /-- An integer of a type that is neither `bool` nor a character type
  (`short`, `int`, `long`, `long long` and their unsigned versions). -/
  | integral (n : Int)
  /-- A value of a character type (`char`, `signed char` or `int8_t`,
  `unsigned char` or `uint8_t`): the stream writes the character itself. At
  the top level of `Logger::operator<<` these types take the integral branch. -/
  | character (c : Char)
  /-- A floating-point number or a pointer, given by the text the platform's
  stream conversion yields for it. -/
  | rendered (text : String)
deriving DecidableEq, Repr

/-- The argument of `Logger::operator<<`, one constructor per branch of the
`if constexpr` cascade that compiles. The last branch is a `static_assert`
failure, so it has no values. -/
inductive Value where
  /-- The branch `std::is_constructible_v<std::string, T>`. -/
  | string (s : String)
  /-- The branch `std::is_same_v<bool, T>`. -/
  | bool (b : Bool)
  /-- The branch `std::is_integral_v<T>`. -/
  | integral (n : Int)
  /-- The branch `std::is_floating_point_v<T>`; `text` is what `ss << val` yields. -/
  | floating (text : String)
  /-- The branch `std::is_pointer_v<T>`; `text` is what `ss << std::hex << val` yields. -/
  | pointer (text : String)
  /-- The branch `is_map<T>::value`; the entries in iteration order. -/
  | map (entries : List (StreamValue × StreamValue))
  /-- The branch `is_list<T>::value`; the elements in iteration order. -/
  | list (items : List StreamValue)
  /-- The branch `std::is_same_v<T, nowhitespace>`. -/
  | nowhitespace
  /-- The branch `has_stream_op<T>::value`: a type with its own
  `operator<<(Logger&)`, given by the values that operator streams into the
  logger, in order. -/
  | stream_op (chain : List Value)

/-! ## Text conversions of the standard library -/

/-- The character of a decimal digit, `'0' + d`. -/
def digitChar (d : Nat) : Char := Char.ofNat (48 + d)

/-- Decimal digits of a natural number, most significant first; the first
argument bounds the number of digits produced. -/
def decimalDigits : Nat → Nat → List Char
  | 0, _ => []
  | fuel + 1, n =>
    if n < 10 then [digitChar n]
    else decimalDigits fuel (n / 10) ++ [digitChar (n % 10)]

/-- The function `std::to_string` on an integer: the text of `printf("%d")`. -/
def to_string (n : Int) : String :=
  if n < 0 then ⟨'-' :: decimalDigits (n.natAbs + 1) n.natAbs⟩
  else ⟨decimalDigits (n.natAbs + 1) n.natAbs⟩

/-- The text `std::ostream::operator<<` writes for a value, with the default
format flags (`std::dec`, no `std::boolalpha`) and the classic locale (no
digit grouping): a string as it is, a `bool` as `1` or `0`, an integer of a
non-character type in decimal, a value of a character type as that one
character. -/
def ostreamInsert : StreamValue → String
  | .string s => s
  | .bool b => if b then "1" else "0"
  | .integral n => to_string n
  | .character c => String.singleton c
  | .rendered text => text

/-! ## Logger::operator<< -/

/-- The constructor `Logger::Logger` (log.cpp, lines 6-9). -/
def Logger.ctor (level : Level) (file : String) (line : Int) (func : String) : Logger :=
  { m_log := { level := level, file := file, line := line, func := func, content := "" },
    m_inswhite := true }

/-- The lambda `addText` of `Logger::operator<<` (include/fty-log.h, lines 92-97). -/
def Logger.addText (lg : Logger) (str : String) : Logger :=
  let content :=
    if lg.m_inswhite && !lg.m_log.content.isEmpty then lg.m_log.content ++ " "
    else lg.m_log.content
  { lg with m_log := { lg.m_log with content := content ++ str } }

/-- The loop of the `is_map` branch (lines 118-121): `ss` is the stream's text
so far and `first` the loop flag. -/
def mapLoop (ss : String) (first : Bool) : List (StreamValue × StreamValue) → String
  | [] => ss
  | it :: rest =>
    mapLoop
      (ss ++ (if !first then ", " else "") ++ "\x7b" ++ ostreamInsert it.1 ++ " : "
        ++ ostreamInsert it.2 ++ "\x7d")
      false rest

/-- The loop of the `is_list` branch (lines 128-131). -/
def listLoop (ss : String) (first : Bool) : List StreamValue → String
  | [] => ss
  | it :: rest => listLoop (ss ++ (if !first then ", " else "") ++ ostreamInsert it) false rest

mutual
/-- The template `Logger::operator<<` (include/fty-log.h, lines 89-142). -/
def Logger.shl (lg : Logger) : Value → Logger
  | .string s => lg.addText s
  | .bool val => lg.addText (if val then "true" else "false")
  | .integral val => lg.addText (to_string val)
  | .floating text => lg.addText text
  | .pointer text => lg.addText text
  | .map val => lg.addText (mapLoop "\x7b" true val ++ "\x7d")
  | .list val => lg.addText (listLoop "[" true val ++ "]")
  | .nowhitespace => { lg with m_inswhite := false }
  | .stream_op chain => Logger.shlAll lg chain
/-- A chain `lg << v1 << v2 << ...`, applied left to right. -/
def Logger.shlAll (lg : Logger) : List Value → Logger
  | [] => lg
  | v :: vs => Logger.shlAll (Logger.shl lg v) vs
end

/-! ## The backend, the dispatch callback and the gate -/

/-- The constant `log4cplus::OFF_LOG_LEVEL` (log4cplus/loglevel.h). -/
def OFF_LOG_LEVEL : Int := 60000
/-- The constant `log4cplus::FATAL_LOG_LEVEL`. -/
def FATAL_LOG_LEVEL : Int := 50000
/-- The constant `log4cplus::ERROR_LOG_LEVEL`. -/
def ERROR_LOG_LEVEL : Int := 40000
/-- The constant `log4cplus::WARN_LOG_LEVEL`. -/
def WARN_LOG_LEVEL : Int := 30000
/-- The constant `log4cplus::INFO_LOG_LEVEL`. -/
def INFO_LOG_LEVEL : Int := 20000
/-- The constant `log4cplus::DEBUG_LOG_LEVEL`. -/
def DEBUG_LOG_LEVEL : Int := 10000
/-- The constant `log4cplus::TRACE_LOG_LEVEL`. -/
def TRACE_LOG_LEVEL : Int := 0

/-- The function `Ftylog::Impl::log4cplusLevel` (logger.cpp, lines 353-371). -/
def log4cplusLevel : Level → Int
  | .Debug => DEBUG_LOG_LEVEL
  | .Error => ERROR_LOG_LEVEL
  | .Fatal => FATAL_LOG_LEVEL
  | .Info => INFO_LOG_LEVEL
  | .Off => OFF_LOG_LEVEL
  | .Trace => TRACE_LOG_LEVEL
  | .Warn => WARN_LOG_LEVEL

/-- The arguments of one call of `log4cplus::detail::macro_forced_log`, the
write operation of the external logging library. -/
structure BackendWrite where
  level : Int
  msg : String
  file : String
  line : Int
  func : String
deriving DecidableEq, Repr

/-- The ways a statement can end other than by returning. -/
inductive Fault where
  /-- An empty `std::function` was called: `std::bad_function_call` leaves a destructor. -/
  | bad_function_call
  /-- A `printf` conversion asked for an argument that was not passed. -/
  | undefined_format
deriving DecidableEq, Repr

/-- The type `Logger::LoggerCallback`, a `std::function<void(const Log&)>`.
A callable supplied by the host program acts on the host program's state `σ`. -/
inductive LoggerCallback (σ : Type) where
  /-- An empty `std::function`. -/
  | empty
  /-- The lambda that `Logger::callBackFunction` installs initially (log.cpp, lines 18-21). -/
  | forwarder
  /-- A callable of the host program. -/
  | user (f : Log → σ → σ)

/-- Observable steps of a log statement, kept as a history in the world. -/
inductive Event where
  /-- A call of `Logger::isSupports(level)`. -/
  | isSupports (level : Level)
  /-- An evaluation of the statement's condition, with its value. -/
  | condition (value : Bool)
  /-- A call of the constructor `Logger::Logger`. -/
  | construct (level : Level) (file : String) (line : Int) (func : String)
  /-- An evaluation of the `n`-th operand of the chain (counted from 0). -/
  | operand (n : Nat)
  /-- A call `callBackFunction()(m_log)` in the destructor, with its argument. -/
  | dispatch (log : Log)
deriving DecidableEq, Repr

/-- The process state a log statement reads and writes. -/
structure World (σ : Type) where
  /-- The level of the logger, `_logger.getLogLevel()`. -/
  logLevel : Int
  /-- The static variable `func` of `Logger::callBackFunction`. -/
  callback : LoggerCallback σ
  /-- The state of the host program. -/
  user : σ
  /-- The calls of `macro_forced_log` made so far, oldest first. -/
  writes : List BackendWrite
  /-- The history of observable steps, oldest first. -/
  trace : List Event

/-- Appends one step to the history. -/
def World.record {σ : Type} (w : World σ) (e : Event) : World σ :=
  { w with trace := w.trace ++ [e] }

/-- The function `Ftylog::Impl::isLogLevel` (logger.cpp, lines 348-351), reached
from `Logger::isSupports` through `Ftylog::isSupports`. -/
def Logger.isSupports {σ : Type} (w : World σ) (level : Level) : Bool :=
  decide (w.logLevel ≤ log4cplusLevel level)

/-- The member `std::string::c_str` read back as a C string: the characters
before the first NUL. -/
def c_str (s : String) : String := ⟨s.data.takeWhile (fun c => c != Char.ofNat 0)⟩

/-- The text `std::vsnprintf` produces for a format when the argument list is
empty: ordinary characters are copied, `%%` gives `%`, and any other use of
`%` reads an argument that is not there. -/
def vsnprintf : List Char → Option (List Char)
  | [] => some []
  | [c] => if c = '%' then none else some [c]
  | c :: d :: rest =>
    if c = '%' then
      if d = '%' then (vsnprintf rest).map (fun out => '%' :: out) else none
    else (vsnprintf (d :: rest)).map (fun out => c :: out)

/-- The function `Ftylog::Impl::insertLog` with a `std::string` message
(logger.cpp, lines 304-308). -/
def Ftylog.Impl.insertLog {σ : Type} (w : World σ) (level : Level) (file : String)
    (line : Int) (func : String) (str : String) : World σ :=
  { w with writes := w.writes ++
      [{ level := log4cplusLevel level, msg := c_str str, file := file, line := line,
         func := func }] }

/-- The function `Ftylog::insertLog` (logger.cpp, lines 503-515), called with a
format and no further arguments. -/
def Ftylog.insertLog {σ : Type} (w : World σ) (level : Level) (file : String)
    (line : Int) (func : String) (format : String) : Except Fault (World σ) :=
  match vsnprintf format.data with
  | none => .error .undefined_format
  | some out =>
    let buff : String := ⟨out ++ [Char.ofNat 0]⟩
    .ok (Ftylog.Impl.insertLog w level file line func buff)

/-- A call of the stored callback, `callBackFunction()(log)`. -/
def LoggerCallback.call {σ : Type} (cb : LoggerCallback σ) (log : Log) (w : World σ) :
    Except Fault (World σ) :=
  match cb with
  | .empty => .error .bad_function_call
  | .forwarder =>
    Ftylog.insertLog w log.level (c_str log.file) log.line (c_str log.func) (c_str log.content)
  | .user f => .ok { w with user := f log w.user }

/-- The function `Logger::setCallback` (log.cpp, lines 25-28). -/
def Logger.setCallback {σ : Type} (w : World σ) (callback : LoggerCallback σ) : World σ :=
  { w with callback := callback }

/-- The destructor `Logger::~Logger` (log.cpp, lines 11-14). -/
def Logger.dtor {σ : Type} (lg : Logger) (w : World σ) : Except Fault (World σ) :=
  w.callback.call lg.m_log (w.record (.dispatch lg.m_log))

/-- An operand of a chain: an expression of the host program, which yields a
value and may change the host program's state. -/
abbrev Operand (σ : Type) := σ → Value × σ

/-- The chain `<< e0 << e1 << ...` after a logger: every operand is evaluated
and then streamed, left to right; `n` is the index of the next operand. -/
def runChain {σ : Type} : List (Operand σ) → Nat → Logger → World σ → Logger × World σ
  | [], _, lg, w => (lg, w)
  | e :: es, n, lg, w =>
    let r := e w.user
    runChain es (n + 1) (lg.shl r.1) ({ w with user := r.2 }.record (.operand n))

/-- The statement `logIf(level, condition) << e0 << e1 << ...;` at a call site
with the given `__FILE__`, `__LINE__` and `__func__` (include/fty-log.h, lines
167-172): the macro `_log`, the chain and the destructor of the temporary. -/
def logIf {σ : Type} (level : Level) (file : String) (line : Int) (func : String)
    (condition : σ → Bool × σ) (chain : List (Operand σ)) (w : World σ) :
    Except Fault (World σ) :=
  let w1 := w.record (.isSupports level)
  if !Logger.isSupports w1 level then .ok w1
  else
    let c := condition w1.user
    let w2 := { w1 with user := c.2 }.record (.condition c.1)
    if !c.1 then .ok w2
    else
      let w3 := w2.record (.construct level file line func)
      let r := runChain chain 0 (Logger.ctor level file line func) w3
      Logger.dtor r.1 r.2

/-- The text of one map entry, `{key : value}`. -/
def mapEntryText (it : StreamValue × StreamValue) : String :=
  "\x7b" ++ ostreamInsert it.1 ++ " : " ++ ostreamInsert it.2 ++ "\x7d"

/-- The number a string of decimal digits denotes, read most significant first. -/
def decimalValue (ds : List Char) : Nat :=
  ds.foldl (fun acc c => 10 * acc + (c.toNat - 48)) 0

/-- The canonical decimal representation of an integer, in the words of the
specification: a leading `'-'` exactly when the number is negative, then
digits only (so no grouping), at least one, without a leading zero unless the
text of the digits is `"0"`, denoting the absolute value. -/
def CanonicalDecimal (n : Int) (s : String) : Prop :=
  (n < 0 ↔ s.data.head? = some '-') ∧
    (if n < 0 then s.data.tail else s.data) ≠ [] ∧
    (∀ c ∈ (if n < 0 then s.data.tail else s.data), c.isDigit = true) ∧
    ((if n < 0 then s.data.tail else s.data).head? = some '0' →
      (if n < 0 then s.data.tail else s.data) = ['0']) ∧
    decimalValue (if n < 0 then s.data.tail else s.data) = n.natAbs

instance (n : Int) (s : String) : Decidable (CanonicalDecimal n s) := by
  unfold CanonicalDecimal
  infer_instance

/-- The values the operands of a chain yield, in order, and the host state
their evaluation leaves, when they are evaluated one after the other. -/
def evalOperands {σ : Type} : List (Operand σ) → σ → List Value × σ
  | [], s => ([], s)
  | e :: es, s => ((e s).1 :: (evalOperands es (e s).2).1, (evalOperands es (e s).2).2)

/-- The record of a statement at a call site once its chain has streamed the
values `vs`: the call site's fields and the content the logger accumulated. -/
def finishedRecord (level : Level) (file : String) (line : Int) (func : String)
    (vs : List Value) : Log :=
  { level := level, file := file, line := line, func := func,
    content := (Logger.shlAll (Logger.ctor level file line func) vs).m_log.content }

/-! ## The test case "Log test" (test/log.cpp) -/

/-- The host state of the test case: the flag `runned` and the variable `currentLog`. -/
structure TestState where
  runned : Bool
  currentLog : Log
deriving DecidableEq, Repr

/-- The process before the test case runs: the logger level is the default
TRACE, the callback is the built-in forwarder, `runned` is false and
`currentLog` is a default-constructed record with empty strings. -/
def initialWorld : World TestState :=
  { logLevel := TRACE_LOG_LEVEL,
    callback := .forwarder,
    user := { runned := false,
              currentLog := { level := .Off, file := "", line := 0, func := "", content := "" } },
    writes := [],
    trace := [] }

/-- The lambda the test case passes to `Logger::setCallback`: `currentLog = log`. -/
def testCallback : LoggerCallback TestState :=
  .user (fun log s => { s with currentLog := log })

/-- The process after the call of `Logger::setCallback` that opens the test case. -/
def testWorld : World TestState := Logger.setCallback initialWorld testCallback

/-- The lambda `caller` of the section "Test condition": it sets `runned` and
returns a C string. -/
def caller : Operand TestState :=
  fun s => (.string "It is dead, that is what is wrong with it.", { s with runned := true })

/-- A condition without side effects that has the given value. -/
def constCondition {σ : Type} (b : Bool) : σ → Bool × σ := fun s => (b, s)

/-- The struct `MyStruct` of the test file with its member
`operator<<(Logger&)` (test/log.cpp, lines 5-15): the values it streams. -/
def MyStruct (val : String) (num : Int) : Value :=
  .stream_op
    [.nowhitespace, .string "MyStruct\x7bval = ", .string val, .string "; num = ",
      .integral num, .string "\x7d"]

/-! ## The level of the logger (logger.cpp) -/

/-- The function `Ftylog::setLogLevelTrace` (logger.cpp, lines 428-431). -/
def Ftylog.setLogLevelTrace {σ : Type} (w : World σ) : World σ :=
  { w with logLevel := TRACE_LOG_LEVEL }

/-- The function `Ftylog::setLogLevelDebug` (lines 433-436). -/
def Ftylog.setLogLevelDebug {σ : Type} (w : World σ) : World σ :=
  { w with logLevel := DEBUG_LOG_LEVEL }

/-- The function `Ftylog::setLogLevelInfo` (lines 438-441). -/
def Ftylog.setLogLevelInfo {σ : Type} (w : World σ) : World σ :=
  { w with logLevel := INFO_LOG_LEVEL }

/-- The function `Ftylog::setLogLevelWarning` (lines 443-446). -/
def Ftylog.setLogLevelWarning {σ : Type} (w : World σ) : World σ :=
  { w with logLevel := WARN_LOG_LEVEL }

/-- The function `Ftylog::setLogLevelError` (lines 448-451). -/
def Ftylog.setLogLevelError {σ : Type} (w : World σ) : World σ :=
  { w with logLevel := ERROR_LOG_LEVEL }

/-- The function `Ftylog::setLogLevelFatal` (lines 453-456). -/
def Ftylog.setLogLevelFatal {σ : Type} (w : World σ) : World σ :=
  { w with logLevel := FATAL_LOG_LEVEL }

/-- The function `Ftylog::setLogLevelOff` (lines 458-461). -/
def Ftylog.setLogLevelOff {σ : Type} (w : World σ) : World σ :=
  { w with logLevel := OFF_LOG_LEVEL }

/-- The one of the seven `setLogLevel*` operations that is named after the
level `t`. -/
def Ftylog.setLogLevel {σ : Type} (t : Level) (w : World σ) : World σ :=
  match t with
  | .Off => Ftylog.setLogLevelOff w
  | .Fatal => Ftylog.setLogLevelFatal w
  | .Error => Ftylog.setLogLevelError w
  | .Warn => Ftylog.setLogLevelWarning w
  | .Info => Ftylog.setLogLevelInfo w
  | .Debug => Ftylog.setLogLevelDebug w
  | .Trace => Ftylog.setLogLevelTrace w

/-- The numeric value of an enumerator of `Ftylog::Level`: its position in the
declaration, `Off` being 0 and `Trace` 6. -/
def Level.value : Level → Nat
  | .Off => 0
  | .Fatal => 1
  | .Error => 2
  | .Warn => 3
  | .Info => 4
  | .Debug => 5
  | .Trace => 6

/-- The function `Ftylog::Impl::setLogLevelFromEnvDefinite` (logger.cpp, lines
177-203): the returned flag and the process after the call. -/
def Ftylog.Impl.setLogLevelFromEnvDefinite {σ : Type} (w : World σ) (level : String) :
    Bool × World σ :=
  if level.isEmpty then (false, w)
  else if level = "LOG_TRACE" then (true, { w with logLevel := TRACE_LOG_LEVEL })
  else if level = "LOG_DEBUG" then (true, { w with logLevel := DEBUG_LOG_LEVEL })
  else if level = "LOG_INFO" then (true, { w with logLevel := INFO_LOG_LEVEL })
  else if level = "LOG_WARNING" then (true, { w with logLevel := WARN_LOG_LEVEL })
  else if level = "LOG_ERR" then (true, { w with logLevel := ERROR_LOG_LEVEL })
  else if level = "LOG_CRIT" then (true, { w with logLevel := FATAL_LOG_LEVEL })
  else if level = "LOG_OFF" then (true, { w with logLevel := OFF_LOG_LEVEL })
  else (false, w)

/-- The function `Ftylog::Impl::setLogInitLevelFromEnv` (lines 208-214). -/
def Ftylog.Impl.setLogInitLevelFromEnv {σ : Type} (w : World σ) (level : String) : World σ :=
  let r := Ftylog.Impl.setLogLevelFromEnvDefinite w level
  if !r.1 then { r.2 with logLevel := OFF_LOG_LEVEL } else r.2

/-- The function `Ftylog::Impl::setLogLevelFromEnv` with a string (lines 216-222). -/
def Ftylog.Impl.setLogLevelFromEnv {σ : Type} (w : World σ) (level : String) : World σ :=
  let r := Ftylog.Impl.setLogLevelFromEnvDefinite w level
  if !r.1 then { r.2 with logLevel := TRACE_LOG_LEVEL } else r.2

/-! ## Observations on callbacks and histories -/

/-- The conversion of a `std::function` to `bool`: whether it holds a target. -/
def LoggerCallback.isCallable {σ : Type} : LoggerCallback σ → Bool
  | .empty => false
  | .forwarder => true
  | .user _ => true

/-- Whether a step is a call of `Logger::isSupports`. -/
def Event.isQuery : Event → Bool
  | .isSupports _ => true
  | _ => false

/-- Whether a step is an evaluation of a condition. -/
def Event.isCondition : Event → Bool
  | .condition _ => true
  | _ => false

/-- A second callback for the test state: it sets `runned` and stores nothing. -/
def markingCallback : LoggerCallback TestState :=
  .user (fun _ s => { s with runned := true })

/-! # Theorems -/

/-! ## Lemmas on `Logger::operator<<` -/

/-- A string is non-empty exactly when `empty()` is false. -/
theorem String.isEmpty_eq_false_iff (s : String) : s.isEmpty = false ↔ s ≠ "" := by
  have h := String.isEmpty_iff s
  constructor
  · intro he hs
    rw [h.2 hs] at he
    exact Bool.noConfusion he
  · intro hs
    cases hb : s.isEmpty
    · rfl
    · exact absurd (h.1 hb) hs

/-- The content after `addText`, as a case distinction on the state. -/
theorem Logger.addText_content (lg : Logger) (str : String) :
    (lg.addText str).m_log.content =
      if lg.m_inswhite = true ∧ lg.m_log.content ≠ "" then lg.m_log.content ++ " " ++ str
      else lg.m_log.content ++ str := by
  unfold Logger.addText
  by_cases hw : lg.m_inswhite = true <;> by_cases hc : lg.m_log.content = ""
  · simp [hw, hc, String.isEmpty]
  · simp [hw, hc, (String.isEmpty_eq_false_iff _).2 hc]
  · simp [hw, hc]
  · simp [hw, hc]

/-- The lambda `addText` leaves the whitespace flag alone. -/
theorem Logger.addText_inswhite (lg : Logger) (str : String) :
    (lg.addText str).m_inswhite = lg.m_inswhite := rfl

/-- The string branch of `operator<<` is `addText`. -/
theorem Logger.shl_string (lg : Logger) (s : String) :
    lg.shl (.string s) = lg.addText s := by
  simp [Logger.shl]

/-- The bool branch of `operator<<`. -/
theorem Logger.shl_bool (lg : Logger) (b : Bool) :
    lg.shl (.bool b) = lg.addText (if b then "true" else "false") := by
  simp [Logger.shl]

/-- The integral branch of `operator<<`. -/
theorem Logger.shl_integral (lg : Logger) (n : Int) :
    lg.shl (.integral n) = lg.addText (to_string n) := by
  simp [Logger.shl]

/-- The list branch of `operator<<`. -/
theorem Logger.shl_list (lg : Logger) (xs : List StreamValue) :
    lg.shl (.list xs) = lg.addText (listLoop "[" true xs ++ "]") := by
  simp [Logger.shl]

/-- The map branch of `operator<<`. -/
theorem Logger.shl_map (lg : Logger) (m : List (StreamValue × StreamValue)) :
    lg.shl (.map m) = lg.addText (mapLoop "\x7b" true m ++ "\x7d") := by
  simp [Logger.shl]

/-- A fresh logger has empty content. -/
theorem Logger.ctor_content (level : Level) (file : String) (line : Int) (func : String) :
    (Logger.ctor level file line func).m_log.content = "" := rfl

/-- The first token of a fresh logger becomes the content. -/
theorem Logger.ctor_addText_content (level : Level) (file : String) (line : Int)
    (func : String) (str : String) :
    ((Logger.ctor level file line func).addText str).m_log.content = str := by
  rw [Logger.addText_content]
  simp [Logger.ctor]

/-! ## Claims on the whitespace rule -/

/-- C1: for every builder state (content `c`, whitespace flag `w`) and every
string token `t`, `operator<<` yields content `c ++ " " ++ t` when `w` is true
and `c` is non-empty, and `c ++ t` otherwise; the flag and the other fields of
the record are left as they were. -/
theorem C1_string_token_whitespace_rule (level : Level) (file : String) (line : Int)
    (func : String) (c : String) (w : Bool) (t : String) :
    Logger.shl ⟨⟨level, file, line, func, c⟩, w⟩ (.string t) =
      ⟨⟨level, file, line, func, if w = true ∧ c ≠ "" then c ++ " " ++ t else c ++ t⟩, w⟩ := by
  have h := Logger.addText_content ⟨⟨level, file, line, func, c⟩, w⟩ t
  rw [Logger.shl_string]
  simp only [Logger.addText] at h ⊢
  simp only [h]

/-- C4: for every string `s`, a fresh record to which `s` is appended as the
only token has content exactly `s`. -/
theorem C4_single_string_verbatim (level : Level) (file : String) (line : Int)
    (func : String) (s : String) :
    ((Logger.ctor level file line func).shl (.string s)).m_log.content = s := by
  rw [Logger.shl_string, Logger.ctor_addText_content]

/-- C5, as stated, fails: with the empty string as first token, the content
after `"" << "Blue"` is `"Blue"`, not `"" ++ " " ++ "Blue"`. -/
theorem C5_counterexample_empty_first_token :
    (((Logger.ctor .Debug "log.cpp" 35 "test").shl (.string "")).shl
        (.string "Blue")).m_log.content = "Blue" ∧
      (((Logger.ctor .Debug "log.cpp" 35 "test").shl (.string "")).shl
        (.string "Blue")).m_log.content ≠ "" ++ " " ++ "Blue" := by
  decide

/-- C5, amended: for every non-empty string `a` and every string `b` appended
in that order to a fresh record in default whitespace mode, the content is
`a ++ " " ++ b`. -/
theorem C5_two_tokens_one_space (level : Level) (file : String) (line : Int)
    (func : String) (a b : String) (ha : a ≠ "") :
    (((Logger.ctor level file line func).shl (.string a)).shl (.string b)).m_log.content =
      a ++ " " ++ b := by
  rw [Logger.shl_string, Logger.shl_string, Logger.addText_content, Logger.addText_inswhite,
    Logger.ctor_addText_content]
  simp [Logger.ctor, ha]

/-- C5, amended, at the tokens of the test: `"Norwegian"` then `"Blue"`. -/
theorem C5_two_tokens_one_space_witness :
    ("Norwegian" : String) ≠ "" ∧
      (((Logger.ctor .Debug "log.cpp" 35 "test").shl (.string "Norwegian")).shl
        (.string "Blue")).m_log.content = "Norwegian Blue" :=
  ⟨by decide, C5_two_tokens_one_space .Debug "log.cpp" 35 "test" "Norwegian" "Blue" (by decide)⟩

/-- C9: the token of a boolean is `"true"` or `"false"`, and for every
non-empty string `p`, appending `p` then `b` to a fresh default-mode record
gives `p ++ " true"` or `p ++ " false"` accordingly. -/
theorem C9_bool_token (level : Level) (file : String) (line : Int) (func : String) :
    (∀ (lg : Logger) (b : Bool),
        lg.shl (.bool b) = lg.shl (.string (if b then "true" else "false"))) ∧
      (∀ b : Bool, ((Logger.ctor level file line func).shl (.bool b)).m_log.content =
        if b then "true" else "false") ∧
      (∀ (p : String) (b : Bool), p ≠ "" →
        (((Logger.ctor level file line func).shl (.string p)).shl (.bool b)).m_log.content =
          if b then p ++ " true" else p ++ " false") := by
  refine ⟨?_, ?_, ?_⟩
  · intro lg b
    rw [Logger.shl_bool, Logger.shl_string]
  · intro b
    rw [Logger.shl_bool, Logger.ctor_addText_content]
  · intro p b hp
    rw [Logger.shl_string, Logger.shl_bool, Logger.addText_content, Logger.addText_inswhite,
      Logger.ctor_addText_content]
    cases b <;> simp [Logger.ctor, hp, String.append_assoc]

/-! ## Lemmas on chains and on the container loops -/

/-- A chain that starts with `v` streams `v` first. -/
theorem Logger.shlAll_cons (lg : Logger) (v : Value) (vs : List Value) :
    Logger.shlAll lg (v :: vs) = Logger.shlAll (lg.shl v) vs := by
  simp [Logger.shlAll]

/-- The empty chain leaves the logger alone. -/
theorem Logger.shlAll_nil (lg : Logger) : Logger.shlAll lg [] = lg := by
  simp [Logger.shlAll]

/-- A chain in two parts is the second part after the first. -/
theorem Logger.shlAll_append (lg : Logger) (us vs : List Value) :
    Logger.shlAll lg (us ++ vs) = Logger.shlAll (Logger.shlAll lg us) vs := by
  induction us generalizing lg with
  | nil => rw [List.nil_append, Logger.shlAll_nil]
  | cons u us ih => rw [List.cons_append, Logger.shlAll_cons, Logger.shlAll_cons, ih]

/-- The accumulator of the library join can be extended on the left. -/
theorem String.intercalate_go_append_left (p acc s : String) (as : List String) :
    String.intercalate.go (p ++ acc) s as = p ++ String.intercalate.go acc s as := by
  induction as generalizing acc with
  | nil => simp [String.intercalate.go]
  | cons a as ih =>
    simp only [String.intercalate.go]
    rw [String.append_assoc, String.append_assoc, ih, String.append_assoc]

/-- String tokens streamed in whitespace mode after non-empty content are
joined to it by single spaces. -/
theorem Logger.shlAll_strings_content (lg : Logger) (ts : List String)
    (hw : lg.m_inswhite = true) (hc : lg.m_log.content ≠ "") :
    (Logger.shlAll lg (ts.map Value.string)).m_log.content =
      String.intercalate.go lg.m_log.content " " ts := by
  induction ts generalizing lg with
  | nil => simp [Logger.shlAll_nil, String.intercalate.go]
  | cons t ts ih =>
    rw [List.map_cons, Logger.shlAll_cons, Logger.shl_string]
    have hcontent : (lg.addText t).m_log.content = lg.m_log.content ++ " " ++ t := by
      rw [Logger.addText_content]
      simp [hw, hc]
    have hne : (lg.addText t).m_log.content ≠ "" := by
      rw [hcontent]
      intro h
      have hd := congrArg String.data h
      simp only [String.data_append] at hd
      have hlen := congrArg List.length hd
      simp at hlen
    rw [ih (lg.addText t) (by rw [Logger.addText_inswhite]; exact hw) hne, hcontent]
    simp [String.intercalate.go]

/-- The old content is a prefix of the content after `addText`. -/
theorem Logger.addText_content_extends (lg : Logger) (str : String) :
    lg.m_log.content.data <+: (lg.addText str).m_log.content.data := by
  rw [Logger.addText_content]
  split
  · rw [String.append_assoc, String.data_append]
    exact List.prefix_append _ _
  · rw [String.data_append]
    exact List.prefix_append _ _

/-- The list loop after the first element is the library join onto the stream. -/
theorem listLoop_false (ss : String) (xs : List StreamValue) :
    listLoop ss false xs = String.intercalate.go ss ", " (xs.map ostreamInsert) := by
  induction xs generalizing ss with
  | nil => simp [listLoop, String.intercalate.go]
  | cons x xs ih =>
    simp only [listLoop, List.map_cons, String.intercalate.go]
    rw [ih]
    simp

/-- The list loop from its start: the opening text, then the joined elements. -/
theorem listLoop_true (ss : String) (xs : List StreamValue) :
    listLoop ss true xs = ss ++ ", ".intercalate (xs.map ostreamInsert) := by
  cases xs with
  | nil => simp [listLoop, String.intercalate]
  | cons x xs =>
    simp only [listLoop, List.map_cons, String.intercalate]
    rw [listLoop_false]
    simp only [Bool.not_true, Bool.false_eq_true, if_false, String.append_empty]
    rw [String.intercalate_go_append_left]

/-- The map loop after the first entry is the library join onto the stream. -/
theorem mapLoop_false (ss : String) (m : List (StreamValue × StreamValue)) :
    mapLoop ss false m = String.intercalate.go ss ", " (m.map mapEntryText) := by
  induction m generalizing ss with
  | nil => simp [mapLoop, String.intercalate.go]
  | cons x xs ih =>
    simp only [mapLoop, List.map_cons, String.intercalate.go]
    rw [ih]
    congr 1
    simp only [mapEntryText, Bool.not_false, if_true, String.append_assoc]

/-- The map loop from its start: the opening text, then the joined entries. -/
theorem mapLoop_true (ss : String) (m : List (StreamValue × StreamValue)) :
    mapLoop ss true m = ss ++ ", ".intercalate (m.map mapEntryText) := by
  cases m with
  | nil => simp [mapLoop, String.intercalate]
  | cons x xs =>
    simp only [mapLoop, List.map_cons, String.intercalate]
    rw [mapLoop_false]
    simp only [Bool.not_true, Bool.false_eq_true, if_false, String.append_empty]
    rw [← String.intercalate_go_append_left]
    congr 1
    simp only [mapEntryText, String.append_assoc]

/-! ## Claims on chains and containers -/

/-- C6: for every list of non-empty string tokens appended left to right to a
fresh record in default whitespace mode, the final content is the tokens
joined by single spaces in call order, and at every append the previous
content is a prefix of the new content. -/
theorem C6_tokens_joined_in_call_order (level : Level) (file : String) (line : Int)
    (func : String) (ts : List String) (hne : ∀ t ∈ ts, t ≠ "") :
    (Logger.shlAll (Logger.ctor level file line func) (ts.map Value.string)).m_log.content =
        " ".intercalate ts ∧
      ∀ (pre : List String) (t : String) (post : List String), ts = pre ++ t :: post →
        (Logger.shlAll (Logger.ctor level file line func)
            (pre.map Value.string)).m_log.content.data <+:
          (Logger.shlAll (Logger.ctor level file line func)
            ((pre ++ [t]).map Value.string)).m_log.content.data := by
  constructor
  · cases ts with
    | nil => simp [Logger.shlAll_nil, Logger.ctor, String.intercalate]
    | cons t ts =>
      rw [List.map_cons, Logger.shlAll_cons, Logger.shl_string,
        Logger.shlAll_strings_content _ ts (by rw [Logger.addText_inswhite]; rfl)
          (by rw [Logger.ctor_addText_content]; exact hne t (List.mem_cons_self t ts)),
        Logger.ctor_addText_content]
      simp [String.intercalate]
  · intro pre t post _
    rw [List.map_append, Logger.shlAll_append, List.map_cons, List.map_nil,
      Logger.shlAll_cons, Logger.shlAll_nil, Logger.shl_string]
    exact Logger.addText_content_extends _ t

/-- C6 at the tokens `"It"`, `"is"`, `"no"`, `"more"`. -/
theorem C6_tokens_joined_in_call_order_witness :
    (∀ t ∈ ["It", "is", "no", "more"], t ≠ "") ∧
      (Logger.shlAll (Logger.ctor .Info "parrot.cpp" 7 "main")
        (["It", "is", "no", "more"].map Value.string)).m_log.content = "It is no more" :=
  ⟨by decide,
    (C6_tokens_joined_in_call_order .Info "parrot.cpp" 7 "main" ["It", "is", "no", "more"]
      (by decide)).1⟩

/-- C7: for every sequence of strings `xs`, appending `xs` as the only token
of a fresh record yields `"["`, the elements joined by `", "` in iteration
order, and `"]"`; for the empty sequence the content is `"[]"`, and the
vector of the test case gives `"[this, is, an, ex-parrot]"`. -/
theorem C7_sequence_of_strings (level : Level) (file : String) (line : Int)
    (func : String) (xs : List String) :
    ((Logger.ctor level file line func).shl
        (.list (xs.map StreamValue.string))).m_log.content =
        "[" ++ ", ".intercalate xs ++ "]" ∧
      ((Logger.ctor level file line func).shl (.list [])).m_log.content = "[]" ∧
      ((Logger.ctor level file line func).shl
        (.list [.string "this", .string "is", .string "an", .string "ex-parrot"])).m_log.content =
        "[this, is, an, ex-parrot]" := by
  have hmap : (xs.map StreamValue.string).map ostreamInsert = xs := by
    rw [List.map_map]
    exact List.map_id xs
  refine ⟨?_, ?_, ?_⟩
  · rw [Logger.shl_list, Logger.ctor_addText_content, listLoop_true, hmap]
  · rw [Logger.shl_list, Logger.ctor_addText_content, listLoop_true]
    rfl
  · rw [Logger.shl_list, Logger.ctor_addText_content]
    decide

/-- C8: for every map `m` from strings to strings, appending `m` as the only
token of a fresh record yields an opening brace, the entries rendered as
`{key : value}` and joined by `", "` in the map's iteration order, and a
closing brace; for the empty map the content is `{}`, and the map of the test
case gives `{{bereft : of life}, {it rests : in peace}}`. -/
theorem C8_map_of_strings (level : Level) (file : String) (line : Int)
    (func : String) (m : List (String × String)) :
    ((Logger.ctor level file line func).shl
        (.map (m.map fun kv => (StreamValue.string kv.1, StreamValue.string kv.2)))).m_log.content =
        "\x7b" ++ ", ".intercalate (m.map fun kv => "\x7b" ++ kv.1 ++ " : " ++ kv.2 ++ "\x7d")
          ++ "\x7d" ∧
      ((Logger.ctor level file line func).shl (.map [])).m_log.content = "\x7b\x7d" ∧
      ((Logger.ctor level file line func).shl
        (.map [(.string "bereft", .string "of life"),
          (.string "it rests", .string "in peace")])).m_log.content =
        "\x7b\x7bbereft : of life\x7d, \x7bit rests : in peace\x7d\x7d" := by
  have hmap : (m.map fun kv => (StreamValue.string kv.1, StreamValue.string kv.2)).map
      mapEntryText = m.map fun kv => "\x7b" ++ kv.1 ++ " : " ++ kv.2 ++ "\x7d" := by
    rw [List.map_map]
    rfl
  refine ⟨?_, ?_, ?_⟩
  · rw [Logger.shl_map, Logger.ctor_addText_content, mapLoop_true, hmap]
  · rw [Logger.shl_map, Logger.ctor_addText_content, mapLoop_true]
    rfl
  · rw [Logger.shl_map, Logger.ctor_addText_content]
    decide

/-! ## The decimal text of integers -/


/-- The characters `'0'` to `'9'` are digits. -/
theorem digitChar_isDigit (d : Nat) (h : d < 10) : (digitChar d).isDigit = true := by
  interval_cases d <;> decide

/-- A digit character denotes its digit. -/
theorem digitChar_toNat (d : Nat) (h : d < 10) : (digitChar d).toNat - 48 = d := by
  interval_cases d <;> decide

/-- Only the digit zero has the character `'0'`. -/
theorem digitChar_eq_zero (d : Nat) (h : d < 10) (h0 : digitChar d = '0') : d = 0 := by
  interval_cases d <;> first | rfl | exact absurd h0 (by decide)

/-- The value of digits followed by one more digit. -/
theorem decimalValue_append_singleton (ds : List Char) (c : Char) :
    decimalValue (ds ++ [c]) = 10 * decimalValue ds + (c.toNat - 48) := by
  simp [decimalValue, List.foldl_append]

/-- With enough fuel `decimalDigits` gives a non-empty string of digits that
denotes the number and starts with `'0'` only for zero. -/
theorem decimalDigits_spec (fuel n : Nat) (h : n < fuel) :
    decimalDigits fuel n ≠ [] ∧ (∀ c ∈ decimalDigits fuel n, c.isDigit = true) ∧
      ((decimalDigits fuel n).head? = some '0' → n = 0) ∧
      decimalValue (decimalDigits fuel n) = n := by
  induction fuel generalizing n with
  | zero => exact absurd h (Nat.not_lt_zero n)
  | succ fuel ih =>
    unfold decimalDigits
    by_cases hn : n < 10
    · rw [if_pos hn]
      refine ⟨by simp, ?_, ?_, ?_⟩
      · intro c hc
        rw [List.mem_singleton] at hc
        rw [hc]
        exact digitChar_isDigit n hn
      · intro h0
        simp only [List.head?_cons, Option.some.injEq] at h0
        exact digitChar_eq_zero n hn h0
      · simp [decimalValue, digitChar_toNat n hn]
    · rw [if_neg hn]
      have hdiv : n / 10 < fuel := by omega
      obtain ⟨hne, hdig, hzero, hval⟩ := ih (n / 10) hdiv
      refine ⟨by simp, ?_, ?_, ?_⟩
      · intro c hc
        rw [List.mem_append, List.mem_singleton] at hc
        rcases hc with hc | hc
        · exact hdig c hc
        · rw [hc]
          exact digitChar_isDigit _ (Nat.mod_lt n (by decide))
      · intro h0
        rw [List.head?_append_of_ne_nil _ hne] at h0
        have := hzero h0
        omega
      · rw [decimalValue_append_singleton, hval, digitChar_toNat _ (Nat.mod_lt n (by decide))]
        omega

/-- The text `std::to_string` gives is the canonical decimal representation. -/
theorem to_string_canonical (n : Int) : CanonicalDecimal n (to_string n) := by
  obtain ⟨hne, hdig, hzero, hval⟩ :=
    decimalDigits_spec (n.natAbs + 1) n.natAbs (Nat.lt_succ_self _)
  have hone : n.natAbs = 0 → decimalDigits (n.natAbs + 1) n.natAbs = ['0'] := by
    intro h
    rw [h]
    rfl
  unfold CanonicalDecimal to_string
  by_cases hn : n < 0
  · simp only [hn, if_true, List.tail_cons, List.head?_cons, true_iff]
    exact ⟨trivial, hne, hdig, fun h0 => hone (hzero h0), hval⟩
  · simp only [hn, if_false, false_iff]
    refine ⟨?_, hne, hdig, fun h0 => hone (hzero h0), hval⟩
    intro hminus
    cases hds : decimalDigits (n.natAbs + 1) n.natAbs with
    | nil => exact hne hds
    | cons c cs =>
      rw [hds] at hminus
      simp only [List.head?_cons, Option.some.injEq] at hminus
      have := hdig c (by rw [hds]; exact List.mem_cons_self c cs)
      rw [hminus] at this
      exact absurd this (by decide)

/-- A digit character is the character of the digit it denotes. -/
theorem digitChar_of_isDigit (c : Char) (h : c.isDigit = true) :
    c.toNat - 48 < 10 ∧ digitChar (c.toNat - 48) = c := by
  have hb : 48 ≤ c.toNat ∧ c.toNat ≤ 57 := by
    simp only [Char.isDigit, Bool.and_eq_true, decide_eq_true_eq] at h
    exact ⟨h.1, h.2⟩
  obtain ⟨h1, h2⟩ := hb
  refine ⟨by omega, ?_⟩
  have hc : c = Char.ofNat c.toNat := (Char.ofNat_toNat c).symm
  generalize c.toNat = k at h1 h2 hc
  subst hc
  interval_cases k <;> rfl

/-- Reading further digits never lowers the value read so far. -/
theorem decimalValue_foldl_ge (cs : List Char) (acc : Nat) :
    acc ≤ cs.foldl (fun acc c => 10 * acc + (c.toNat - 48)) acc := by
  induction cs generalizing acc with
  | nil => exact Nat.le_refl acc
  | cons c cs ih =>
    simp only [List.foldl_cons]
    exact Nat.le_trans (by omega) (ih _)

/-- Digits that do not start with `'0'` denote a positive number. -/
theorem decimalValue_pos (ds : List Char) (hne : ds ≠ [])
    (hdig : ∀ c ∈ ds, c.isDigit = true) (hz : ds.head? ≠ some '0') : 0 < decimalValue ds := by
  cases ds with
  | nil => exact absurd rfl hne
  | cons c cs =>
    have hc := digitChar_of_isDigit c (hdig c (List.mem_cons_self c cs))
    have hpos : 0 < c.toNat - 48 := by
      rcases Nat.eq_zero_or_pos (c.toNat - 48) with h0 | h0
      · rw [h0] at hc
        exact absurd (by rw [← hc.2]; rfl) hz
      · exact h0
    unfold decimalValue
    simp only [List.foldl_cons]
    exact Nat.lt_of_lt_of_le (by omega) (decimalValue_foldl_ge cs _)

/-- A non-empty string of digits without a leading zero is the text
`decimalDigits` gives for the number it denotes. -/
theorem decimalDigits_unique (ds : List Char) :
    ds ≠ [] → (∀ c ∈ ds, c.isDigit = true) → (ds.head? = some '0' → ds = ['0']) →
      ∀ fuel, decimalValue ds < fuel → decimalDigits fuel (decimalValue ds) = ds := by
  induction ds using List.reverseRecOn with
  | nil => intro h; exact absurd rfl h
  | append_singleton init c ih =>
    intro _ hdig hzero fuel hfuel
    have hc := digitChar_of_isDigit c (hdig c (by simp))
    rw [decimalValue_append_singleton] at hfuel ⊢
    cases fuel with
    | zero => exact absurd hfuel (Nat.not_lt_zero _)
    | succ fuel =>
      unfold decimalDigits
      by_cases hinit : init = []
      · subst hinit
        simp only [decimalValue, List.foldl_nil, Nat.mul_zero, Nat.zero_add, List.nil_append]
        rw [if_pos hc.1, hc.2]
      · have hdig' : ∀ c ∈ init, c.isDigit = true := fun x hx => hdig x (by simp [hx])
        have hhead : (init ++ [c]).head? = init.head? := List.head?_append_of_ne_nil _ hinit
        have hz' : init.head? ≠ some '0' := by
          intro h0
          have := hzero (by rw [hhead]; exact h0)
          have hlen := congrArg List.length this
          simp at hlen
          exact hinit hlen
        have hpos := decimalValue_pos init hinit hdig' hz'
        have hge : ¬ (10 * decimalValue init + (c.toNat - 48) < 10) := by omega
        rw [if_neg hge]
        have hdiv : (10 * decimalValue init + (c.toNat - 48)) / 10 = decimalValue init := by omega
        have hmod : (10 * decimalValue init + (c.toNat - 48)) % 10 = c.toNat - 48 := by omega
        rw [hdiv, hmod, hc.2, ih hinit hdig' (fun h0 => absurd h0 hz') fuel (by omega)]

/-- The canonical decimal representation is unique: it is the text of `std::to_string`. -/
theorem canonicalDecimal_unique (n : Int) (s : String) (h : CanonicalDecimal n s) :
    s = to_string n := by
  obtain ⟨hsign, hne, hdig, hzero, hval⟩ := h
  unfold to_string
  by_cases hn : n < 0
  · simp only [hn, if_true] at hne hdig hzero hval ⊢
    have hhead := hsign.1 hn
    have hu := decimalDigits_unique _ hne hdig hzero (n.natAbs + 1) (by omega)
    rw [hval] at hu
    rw [hu]
    cases hs : s.data with
    | nil => rw [hs] at hhead; exact absurd hhead (by simp)
    | cons c cs =>
      rw [hs] at hhead
      simp only [List.head?_cons, Option.some.injEq] at hhead
      have : s = ⟨s.data⟩ := rfl
      rw [this, hs, hhead]
      rfl
  · simp only [hn, if_false] at hne hdig hzero hval ⊢
    have hu := decimalDigits_unique _ hne hdig hzero (n.natAbs + 1) (by omega)
    rw [hval] at hu
    rw [hu]

/-- C10: for every integer `n`, appending `n` as the only token of a fresh
record yields the canonical decimal representation of `n`: digits without
grouping or leading zeros, with a leading `'-'` exactly when `n` is negative;
no other text is canonical for `n`, and `42` gives `"42"`. -/
theorem C10_integral_token_canonical_decimal (level : Level) (file : String) (line : Int)
    (func : String) :
    (∀ n : Int,
        CanonicalDecimal n ((Logger.ctor level file line func).shl (.integral n)).m_log.content) ∧
      (∀ (n : Int) (s : String), CanonicalDecimal n s →
        ((Logger.ctor level file line func).shl (.integral n)).m_log.content = s) ∧
      ((Logger.ctor level file line func).shl (.integral 42)).m_log.content = "42" := by
  refine ⟨?_, ?_, ?_⟩
  · intro n
    rw [Logger.shl_integral, Logger.ctor_addText_content]
    exact to_string_canonical n
  · intro n s hs
    rw [Logger.shl_integral, Logger.ctor_addText_content]
    exact (canonicalDecimal_unique n s hs).symm
  · rw [Logger.shl_integral, Logger.ctor_addText_content]
    decide

/-! ## The gate and the dispatch -/

mutual
/-- The operator `<<` changes no field of the record other than the content. -/
theorem Logger.shl_m_log : ∀ (v : Value) (lg : Logger),
    (lg.shl v).m_log = { lg.m_log with content := (lg.shl v).m_log.content }
  | .string _, _ => by simp [Logger.shl, Logger.addText]
  | .bool _, _ => by simp [Logger.shl, Logger.addText]
  | .integral _, _ => by simp [Logger.shl, Logger.addText]
  | .floating _, _ => by simp [Logger.shl, Logger.addText]
  | .pointer _, _ => by simp [Logger.shl, Logger.addText]
  | .map _, _ => by simp [Logger.shl, Logger.addText]
  | .list _, _ => by simp [Logger.shl, Logger.addText]
  | .nowhitespace, _ => by simp [Logger.shl]
  | .stream_op chain, lg => by
    have h := Logger.shlAll_m_log chain lg
    simp only [Logger.shl]
    exact h
/-- A chain changes no field of the record other than the content. -/
theorem Logger.shlAll_m_log : ∀ (vs : List Value) (lg : Logger),
    (Logger.shlAll lg vs).m_log = { lg.m_log with content := (Logger.shlAll lg vs).m_log.content }
  | [], _ => by simp [Logger.shlAll]
  | v :: vs, lg => by
    have h1 := Logger.shl_m_log v lg
    have h2 := Logger.shlAll_m_log vs (lg.shl v)
    simp only [Logger.shlAll]
    rw [h2, h1]
end

/-- The chain of a statement streams the values of its operands in order,
leaves the host state their evaluation leaves, and records one evaluation per
operand. -/
theorem runChain_eq {σ : Type} (chain : List (Operand σ)) (n : Nat) (lg : Logger)
    (w : World σ) :
    runChain chain n lg w =
      (Logger.shlAll lg (evalOperands chain w.user).1,
        { w with
          user := (evalOperands chain w.user).2,
          trace := w.trace ++ (List.range' n chain.length).map Event.operand }) := by
  induction chain generalizing n lg w with
  | nil => simp [runChain, evalOperands, Logger.shlAll_nil]
  | cons e es ih =>
    simp only [runChain, evalOperands, Logger.shlAll_cons, List.length_cons]
    rw [ih]
    simp [World.record, List.range'_succ]

/-- Recording a step does not change the answer of `isSupports`. -/
theorem Logger.isSupports_record {σ : Type} (w : World σ) (e : Event) (level : Level) :
    Logger.isSupports (w.record e) level = Logger.isSupports w level := rfl

/-- Recording a step does not change the host state. -/
theorem World.record_user {σ : Type} (w : World σ) (e : Event) :
    (w.record e).user = w.user := rfl

/-- C2: if `Logger::isSupports(level)` is false or the condition evaluates to
false, the statement returns normally having evaluated no operand of the
chain, constructed no logger and invoked no callback: the history gains only
the level query (and the evaluation of the condition when the level is
supported), the host state is as the condition, if evaluated, left it, and the
callback, the backend writes and the level are untouched. -/
theorem C2_closed_gate_evaluates_nothing {σ : Type} (level : Level) (file : String)
    (line : Int) (func : String) (condition : σ → Bool × σ) (chain : List (Operand σ))
    (w : World σ)
    (hclosed : Logger.isSupports w level = false ∨ (condition w.user).1 = false) :
    logIf level file line func condition chain w =
      .ok (if Logger.isSupports w level = true then
        { w with
          user := (condition w.user).2,
          trace := w.trace ++ [Event.isSupports level, Event.condition false] }
      else { w with trace := w.trace ++ [Event.isSupports level] }) := by
  by_cases hs : Logger.isSupports w level = true
  · have hc : (condition w.user).1 = false := by
      rcases hclosed with h | h
      · rw [hs] at h
        exact Bool.noConfusion h
      · exact h
    simp only [logIf, Logger.isSupports_record, World.record_user, hs, hc]
    simp [World.record]
  · have hs0 : Logger.isSupports w level = false := by
      cases h : Logger.isSupports w level
      · rfl
      · exact absurd h hs
    simp only [logIf, Logger.isSupports_record, hs0]
    simp [World.record]

/-- C2 at the statement `logDbgIf(false) << caller()` of the test case:
`runned` stays false and `currentLog` keeps its empty content. -/
theorem C2_closed_gate_evaluates_nothing_witness :
    (Logger.isSupports testWorld .Debug = false ∨
        ((constCondition false : TestState → Bool × TestState) testWorld.user).1 = false) ∧
      logIf .Debug "test/log.cpp" 84 "test" (constCondition false) [caller] testWorld =
        .ok { testWorld with trace := [Event.isSupports .Debug, Event.condition false] } ∧
      testWorld.user.runned = false ∧ testWorld.user.currentLog.content = "" :=
  ⟨Or.inr rfl,
    C2_closed_gate_evaluates_nothing .Debug "test/log.cpp" 84 "test" (constCondition false)
      [caller] testWorld (Or.inr rfl),
    rfl, rfl⟩

/-- C3: for every enabled statement (level supported and condition true) with
any chain, the stored callback is called exactly once, after every operand
has been evaluated and streamed, with the record that has the call site's
level, file, line and func and the logger's final content; a chain of zero
tokens gives the empty content, and a callable of the host program is applied
once to that record. -/
theorem C3_open_gate_dispatches_once {σ : Type} (level : Level) (file : String)
    (line : Int) (func : String) (condition : σ → Bool × σ) (chain : List (Operand σ))
    (w : World σ) (hlevel : Logger.isSupports w level = true)
    (hcond : (condition w.user).1 = true) :
    logIf level file line func condition chain w =
        w.callback.call
          (finishedRecord level file line func (evalOperands chain (condition w.user).2).1)
          { w with
            user := (evalOperands chain (condition w.user).2).2,
            trace := w.trace ++
              [Event.isSupports level, Event.condition true,
                Event.construct level file line func] ++
              (List.range chain.length).map Event.operand ++
              [Event.dispatch
                (finishedRecord level file line func
                  (evalOperands chain (condition w.user).2).1)] } ∧
      (chain = [] →
        finishedRecord level file line func (evalOperands chain (condition w.user).2).1 =
          { level := level, file := file, line := line, func := func, content := "" }) ∧
      (∀ f : Log → σ → σ, w.callback = .user f →
        logIf level file line func condition chain w =
          .ok { w with
            user := f (finishedRecord level file line func
                (evalOperands chain (condition w.user).2).1)
              (evalOperands chain (condition w.user).2).2,
            trace := w.trace ++
              [Event.isSupports level, Event.condition true,
                Event.construct level file line func] ++
              (List.range chain.length).map Event.operand ++
              [Event.dispatch
                (finishedRecord level file line func
                  (evalOperands chain (condition w.user).2).1)] }) := by
  have hrec : ∀ vs : List Value,
      (Logger.shlAll (Logger.ctor level file line func) vs).m_log =
        finishedRecord level file line func vs := by
    intro vs
    rw [Logger.shlAll_m_log]
    rfl
  have hmain : logIf level file line func condition chain w =
      w.callback.call
        (finishedRecord level file line func (evalOperands chain (condition w.user).2).1)
        { w with
          user := (evalOperands chain (condition w.user).2).2,
          trace := w.trace ++
            [Event.isSupports level, Event.condition true,
              Event.construct level file line func] ++
            (List.range chain.length).map Event.operand ++
            [Event.dispatch
              (finishedRecord level file line func
                (evalOperands chain (condition w.user).2).1)] } := by
    simp only [logIf, Logger.isSupports_record, World.record_user, hlevel, hcond,
      Bool.not_true, Bool.false_eq_true, if_false, runChain_eq, Logger.dtor, hrec]
    simp [World.record, List.range_eq_range']
  refine ⟨hmain, ?_, ?_⟩
  · intro hnil
    rw [hnil]
    rfl
  · intro f hf
    rw [hmain, hf]
    rfl

/-- C3 at the statement `logDbg() << "Dead Parrot"` of the test case: the
callback of the test receives the record once, and `currentLog` holds it. -/
theorem C3_open_gate_dispatches_once_witness :
    Logger.isSupports testWorld .Debug = true ∧
      ((constCondition true : TestState → Bool × TestState) testWorld.user).1 = true ∧
      logIf .Debug "test/log.cpp" 26 "test" (constCondition true)
          [fun s => (Value.string "Dead Parrot", s)] testWorld =
        .ok { testWorld with
          user :=
            { runned := false,
              currentLog :=
                { level := .Debug, file := "test/log.cpp", line := 26, func := "test",
                  content := "Dead Parrot" } },
          trace :=
            [Event.isSupports .Debug, Event.condition true,
              Event.construct .Debug "test/log.cpp" 26 "test", Event.operand 0,
              Event.dispatch
                { level := .Debug, file := "test/log.cpp", line := 26, func := "test",
                  content := "Dead Parrot" }] } :=
  ⟨by decide, rfl,
    (C3_open_gate_dispatches_once .Debug "test/log.cpp" 26 "test" (constCondition true)
      [fun s => (Value.string "Dead Parrot", s)] testWorld (by decide) rfl).2.2 _ rfl⟩

/-! ## The no-whitespace mode -/

/-- The sentinel branch of `operator<<` clears the flag and nothing else. -/
theorem Logger.shl_nowhitespace (lg : Logger) :
    lg.shl .nowhitespace = { lg with m_inswhite := false } := by
  simp [Logger.shl]

/-- The branch for a type with its own `operator<<` streams that type's chain. -/
theorem Logger.shl_stream_op (lg : Logger) (chain : List Value) :
    lg.shl (.stream_op chain) = Logger.shlAll lg chain := by
  simp [Logger.shl]

mutual
/-- Once the flag is false, `operator<<` leaves it false, whatever the value. -/
theorem Logger.shl_inswhite_false : ∀ (v : Value) (lg : Logger),
    lg.m_inswhite = false → (lg.shl v).m_inswhite = false
  | .string _, _, h => by simpa [Logger.shl, Logger.addText] using h
  | .bool _, _, h => by simpa [Logger.shl, Logger.addText] using h
  | .integral _, _, h => by simpa [Logger.shl, Logger.addText] using h
  | .floating _, _, h => by simpa [Logger.shl, Logger.addText] using h
  | .pointer _, _, h => by simpa [Logger.shl, Logger.addText] using h
  | .map _, _, h => by simpa [Logger.shl, Logger.addText] using h
  | .list _, _, h => by simpa [Logger.shl, Logger.addText] using h
  | .nowhitespace, _, _ => by simp [Logger.shl]
  | .stream_op chain, lg, h => by
    have h' := Logger.shlAll_inswhite_false chain lg h
    simp only [Logger.shl]
    exact h'
/-- Once the flag is false, a chain leaves it false. -/
theorem Logger.shlAll_inswhite_false : ∀ (vs : List Value) (lg : Logger),
    lg.m_inswhite = false → (Logger.shlAll lg vs).m_inswhite = false
  | [], _, h => by simpa [Logger.shlAll] using h
  | v :: vs, lg, h => by
    have h1 := Logger.shl_inswhite_false v lg h
    have h2 := Logger.shlAll_inswhite_false vs (lg.shl v) h1
    simp only [Logger.shlAll]
    exact h2
end

/-- With the flag false, `addText` appends the text and no space. -/
theorem Logger.addText_content_of_false (lg : Logger) (str : String)
    (h : lg.m_inswhite = false) :
    (lg.addText str).m_log.content = lg.m_log.content ++ str := by
  rw [Logger.addText_content]
  simp [h]

/-- Concatenation of strings onto an accumulator. -/
theorem String.foldl_append_eq (acc : String) (ts : List String) :
    ts.foldl (fun r s => r ++ s) acc = acc ++ String.join ts := by
  induction ts generalizing acc with
  | nil => simp [String.join]
  | cons t ts ih =>
    simp only [List.foldl_cons, String.join]
    rw [ih, ih ("" ++ t)]
    simp [String.append_assoc]

/-- The concatenation of a list of strings that starts with `t`. -/
theorem String.join_cons (t : String) (ts : List String) :
    String.join (t :: ts) = t ++ String.join ts := by
  simp only [String.join, List.foldl_cons]
  rw [String.foldl_append_eq ("" ++ t)]
  simp [String.join]

/-- With the flag false, string tokens are concatenated onto the content. -/
theorem Logger.shlAll_strings_content_of_false (lg : Logger) (ts : List String)
    (h : lg.m_inswhite = false) :
    (Logger.shlAll lg (ts.map Value.string)).m_log.content =
      lg.m_log.content ++ String.join ts := by
  induction ts generalizing lg with
  | nil => simp [Logger.shlAll_nil, String.join]
  | cons t ts ih =>
    rw [List.map_cons, Logger.shlAll_cons, Logger.shl_string,
      ih (lg.addText t) (by rw [Logger.addText_inswhite]; exact h),
      Logger.addText_content_of_false lg t h, String.join_cons, String.append_assoc]

/-- The content after streaming `MyStruct{val, num}` once the sentinel it
starts with has cleared the flag. -/
theorem Logger.shl_MyStruct (lg : Logger) (val : String) (num : Int) :
    (lg.shl (MyStruct val num)).m_log.content =
        lg.m_log.content ++ "MyStruct\x7bval = " ++ val ++ "; num = " ++ to_string num ++ "\x7d" ∧
      (lg.shl (MyStruct val num)).m_inswhite = false := by
  have hf : (lg.shl .nowhitespace).m_inswhite = false := by
    rw [Logger.shl_nowhitespace]
  have hc : (lg.shl .nowhitespace).m_log.content = lg.m_log.content := by
    rw [Logger.shl_nowhitespace]
  constructor
  · unfold MyStruct
    rw [Logger.shl_stream_op, Logger.shlAll_cons]
    simp only [Logger.shlAll_cons, Logger.shlAll_nil, Logger.shl_string, Logger.shl_integral]
    simp only [Logger.addText_content_of_false, Logger.addText_inswhite, hf, hc]
  · unfold MyStruct
    rw [Logger.shl_stream_op, Logger.shlAll_cons]
    exact Logger.shlAll_inswhite_false _ _ hf

/-- C11: appending the `nowhitespace` sentinel leaves the record unchanged and
sets the whitespace flag to false; no value streamed afterwards sets the flag
back to true; and for every content `c` and every list of string tokens
appended after the sentinel, the final content is `c` followed by the plain
concatenation of the tokens. -/
theorem C11_nowhitespace_is_permanent (lg : Logger) :
    (lg.shl .nowhitespace).m_log = lg.m_log ∧
      (lg.shl .nowhitespace).m_inswhite = false ∧
      (∀ vs : List Value, (Logger.shlAll (lg.shl .nowhitespace) vs).m_inswhite = false) ∧
      (∀ ts : List String,
        (Logger.shlAll (lg.shl .nowhitespace) (ts.map Value.string)).m_log.content =
          lg.m_log.content ++ String.join ts) := by
  have hf : (lg.shl .nowhitespace).m_inswhite = false := by
    rw [Logger.shl_nowhitespace]
  have hc : (lg.shl .nowhitespace).m_log = lg.m_log := by
    rw [Logger.shl_nowhitespace]
  refine ⟨hc, hf, ?_, ?_⟩
  · intro vs
    exact Logger.shlAll_inswhite_false vs _ hf
  · intro ts
    rw [Logger.shlAll_strings_content_of_false _ ts hf, hc]

/-- C12: for every string `val` and integer `num`, appending the test type
`MyStruct{val, num}` as the only token of a fresh record yields the space-free
concatenation `"MyStruct{val = " ++ val ++ "; num = " ++ decimal(num) ++ "}"`,
where `decimal(num)` is the text of `std::to_string`, the canonical decimal
representation; the value of the test gives `MyStruct{val = is no more; num = 42}`. -/
theorem C12_self_describing_type (level : Level) (file : String) (line : Int)
    (func : String) :
    (∀ (val : String) (num : Int),
        ((Logger.ctor level file line func).shl (MyStruct val num)).m_log.content =
            "MyStruct\x7bval = " ++ val ++ "; num = " ++ to_string num ++ "\x7d" ∧
          CanonicalDecimal num (to_string num)) ∧
      ((Logger.ctor level file line func).shl (MyStruct "is no more" 42)).m_log.content =
        "MyStruct\x7bval = is no more; num = 42\x7d" := by
  constructor
  · intro val num
    refine ⟨?_, to_string_canonical num⟩
    rw [(Logger.shl_MyStruct _ val num).1]
    simp [Logger.ctor]
  · rw [(Logger.shl_MyStruct _ _ _).1]
    rfl

/-- C20: the no-whitespace mode set inside the formatter of `MyStruct` stays
on after it: for every content `c` accumulated in default mode and every
string token `t`, appending `MyStruct{val, num}` and then `t` yields
`c ++ "MyStruct{val = " ++ val ++ "; num = " ++ decimal(num) ++ "}" ++ t`,
with no space before the text of the struct and none before `t`. -/
theorem C20_nowhitespace_leaks_out_of_formatter (level : Level) (file : String)
    (line : Int) (func : String) (c : String) (val : String) (num : Int) (t : String) :
    (((Logger.mk ⟨level, file, line, func, c⟩ true).shl (MyStruct val num)).shl
          (.string t)).m_log.content =
        c ++ "MyStruct\x7bval = " ++ val ++ "; num = " ++ to_string num ++ "\x7d" ++ t ∧
      CanonicalDecimal num (to_string num) := by
  refine ⟨?_, to_string_canonical num⟩
  have h := Logger.shl_MyStruct (Logger.mk ⟨level, file, line, func, c⟩ true) val num
  rw [Logger.shl_string, Logger.addText_content_of_false _ t h.2, h.1]

/-! ## Elements of containers -/

/-- C13, as stated, fails: inside a sequence the booleans `true` and `false`
are written `1` and `0`, while on their own they give `true` and `false`. -/
theorem C13_counterexample_bool_elements :
    ((Logger.ctor .Debug "test/log.cpp" 98 "test").shl
        (.list [.bool true, .bool false])).m_log.content = "[1, 0]" ∧
      ((Logger.ctor .Debug "test/log.cpp" 98 "test").shl
        (.list [.bool true, .bool false])).m_log.content ≠ "[true, false]" ∧
      ((Logger.ctor .Debug "test/log.cpp" 98 "test").shl (.bool true)).m_log.content = "true" ∧
      ((Logger.ctor .Debug "test/log.cpp" 98 "test").shl (.bool false)).m_log.content =
        "false" := by
  decide

/-- C13, amended: elements of a sequence and keys and values of a map are
written by the stream's own insertion, not by the category dispatch of the
logger: a sequence token is `"["`, the stream texts of the elements joined by
`", "`, and `"]"`, a map token joins the entries `{key : value}` built from
the stream texts; for every sequence of booleans the elements are rendered as
`1` and `0`; a string element has the text it gives when appended on its
own. -/
theorem C13_elements_use_stream_insertion (level : Level) (file : String) (line : Int)
    (func : String) :
    (∀ xs : List StreamValue,
        ((Logger.ctor level file line func).shl (.list xs)).m_log.content =
          "[" ++ ", ".intercalate (xs.map ostreamInsert) ++ "]") ∧
      (∀ m : List (StreamValue × StreamValue),
        ((Logger.ctor level file line func).shl (.map m)).m_log.content =
          "\x7b" ++ ", ".intercalate (m.map fun it =>
            "\x7b" ++ ostreamInsert it.1 ++ " : " ++ ostreamInsert it.2 ++ "\x7d") ++ "\x7d") ∧
      (∀ bs : List Bool,
        ((Logger.ctor level file line func).shl
            (.list (bs.map StreamValue.bool))).m_log.content =
          "[" ++ ", ".intercalate (bs.map fun b => if b then "1" else "0") ++ "]") ∧
      (∀ s : String,
        ostreamInsert (.string s) =
          ((Logger.ctor level file line func).shl (.string s)).m_log.content) := by
  refine ⟨?_, ?_, ?_, ?_⟩
  · intro xs
    rw [Logger.shl_list, Logger.ctor_addText_content, listLoop_true]
  · intro m
    rw [Logger.shl_map, Logger.ctor_addText_content, mapLoop_true]
    rfl
  · intro bs
    rw [Logger.shl_list, Logger.ctor_addText_content, listLoop_true, List.map_map]
    rfl
  · intro s
    rw [Logger.shl_string, Logger.ctor_addText_content]
    rfl

/-- Values of a character type differ in the same way as booleans: inside a
sequence the `char` with the code 65 is written as the character `A`, and on
its own, through the integral branch, as the decimal text `65`. -/
theorem character_element_is_written_as_character :
    ((Logger.ctor .Debug "test/log.cpp" 98 "test").shl
        (.list [.character 'A', .character 'b'])).m_log.content = "[A, b]" ∧
      ((Logger.ctor .Debug "test/log.cpp" 98 "test").shl
        (.integral ('A').toNat)).m_log.content = "65" := by
  decide

/-! ## The callback -/

/-- C14 fails on the code: the built-in forwarder passes the content as the
`printf` format of `Ftylog::insertLog`, so for the content `50%% done` the
backend receives the message `50% done`, and for the content `100%` the
format asks for an argument that was not passed. -/
theorem C14_forwarder_reads_content_as_format :
    (LoggerCallback.call .forwarder
        { level := .Debug, file := "main.cpp", line := 10, func := "main",
          content := "50%% done" } initialWorld).toOption.map (fun w => w.writes) =
        some [{ level := DEBUG_LOG_LEVEL, msg := "50% done", file := "main.cpp", line := 10,
                func := "main" }] ∧
      (LoggerCallback.call .forwarder
          { level := .Debug, file := "main.cpp", line := 10, func := "main",
            content := "100%" } initialWorld) = .error .undefined_format := by
  constructor
  · decide
  · rfl

/-- C16, as stated, fails: `Logger::setCallback` stores an empty
`std::function` as it is, and the next enabled statement ends in
`std::bad_function_call`. -/
theorem C16_counterexample_empty_callback :
    (Logger.setCallback initialWorld .empty).callback.isCallable = false ∧
      logIf .Debug "test/log.cpp" 26 "test" (constCondition true)
          [fun s => (Value.string "Dead Parrot", s)] (Logger.setCallback initialWorld .empty) =
        .error .bad_function_call := by
  constructor
  · rfl
  · rfl

/-- C16, amended: the callback initially holds the built-in forwarder, and
after a call of `Logger::setCallback` with a non-empty callable the stored
callback is that callable and is non-empty, so the dispatch at the end of a
statement does not hit an unset callback. -/
theorem C16_callable_after_setCallback {σ : Type} (w : World σ) (callback : LoggerCallback σ)
    (hcallable : callback.isCallable = true) :
    initialWorld.callback.isCallable = true ∧
      (Logger.setCallback w callback).callback = callback ∧
      (Logger.setCallback w callback).callback.isCallable = true ∧
      ∀ lg : Logger, Logger.dtor lg (Logger.setCallback w callback) ≠
        .error .bad_function_call := by
  refine ⟨rfl, rfl, hcallable, ?_⟩
  intro lg
  unfold Logger.dtor Logger.setCallback LoggerCallback.call
  cases callback with
  | empty => exact Bool.noConfusion hcallable
  | forwarder =>
    simp only [Ftylog.insertLog]
    split <;> simp
  | user f => simp

/-- C16, amended, at the callback of the test case. -/
theorem C16_callable_after_setCallback_witness :
    testCallback.isCallable = true ∧
      (Logger.setCallback initialWorld testCallback).callback.isCallable = true :=
  ⟨rfl, (C16_callable_after_setCallback initialWorld testCallback rfl).2.2.1⟩

/-! ## The forwarder on plain text -/

/-- A format without `%` is copied as it is. -/
theorem vsnprintf_of_plain (cs : List Char) (h : ∀ c ∈ cs, c ≠ '%') :
    vsnprintf cs = some cs := by
  induction cs with
  | nil => rfl
  | cons c cs ih =>
    have hc : c ≠ '%' := h c (List.mem_cons_self c cs)
    have ih' := ih (fun x hx => h x (List.mem_cons_of_mem c hx))
    cases cs with
    | nil => simp [vsnprintf, hc]
    | cons d rest => simp [vsnprintf, hc, ih']

/-- A string without NUL is its own C string. -/
theorem c_str_of_plain (s : String) (h : ∀ c ∈ s.data, c ≠ Char.ofNat 0) : c_str s = s := by
  unfold c_str
  have : s.data.takeWhile (fun c => c != Char.ofNat 0) = s.data := by
    rw [List.takeWhile_eq_self_iff]
    intro c hc
    simpa using h c hc
  rw [this]

/-- The C string of a buffer that ends in NUL and has no other NUL. -/
theorem c_str_of_terminated (out : List Char) (h : ∀ c ∈ out, c ≠ Char.ofNat 0) :
    c_str ⟨out ++ [Char.ofNat 0]⟩ = ⟨out⟩ := by
  unfold c_str
  congr 1
  induction out with
  | nil => simp [List.takeWhile]
  | cons c cs ih =>
    have hc : c ≠ Char.ofNat 0 := h c (List.mem_cons_self c cs)
    simp only [List.cons_append, List.takeWhile_cons]
    simp only [bne_iff_ne, ne_eq, hc, not_false_eq_true, if_true]
    rw [ih (fun x hx => h x (List.mem_cons_of_mem c hx))]

/-- On a record whose strings contain neither `%` nor NUL the built-in
forwarder hands the fields to the backend as they are. -/
theorem forwarder_writes_plain_content {σ : Type} (log : Log) (w : World σ)
    (hfile : ∀ c ∈ log.file.data, c ≠ Char.ofNat 0)
    (hfunc : ∀ c ∈ log.func.data, c ≠ Char.ofNat 0)
    (hnul : ∀ c ∈ log.content.data, c ≠ Char.ofNat 0)
    (hpercent : ∀ c ∈ log.content.data, c ≠ '%') :
    LoggerCallback.call .forwarder log w =
      .ok { w with writes := w.writes ++
        [{ level := log4cplusLevel log.level, msg := log.content, file := log.file,
           line := log.line, func := log.func }] } := by
  simp only [LoggerCallback.call, Ftylog.insertLog, c_str_of_plain log.file hfile,
    c_str_of_plain log.func hfunc, c_str_of_plain log.content hnul,
    vsnprintf_of_plain log.content.data hpercent, Ftylog.Impl.insertLog,
    c_str_of_terminated log.content.data hnul]

/-! ## The three outcomes of a statement -/

/-- A statement at an unsupported level only queries the level. -/
theorem logIf_of_unsupported {σ : Type} (level : Level) (file : String) (line : Int)
    (func : String) (condition : σ → Bool × σ) (chain : List (Operand σ)) (w : World σ)
    (hlevel : Logger.isSupports w level = false) :
    logIf level file line func condition chain w =
      .ok { w with trace := w.trace ++ [Event.isSupports level] } := by
  simp only [logIf, Logger.isSupports_record, hlevel]
  simp [World.record]

/-- A statement at a supported level whose condition is false queries the
level and evaluates the condition. -/
theorem logIf_of_condition_false {σ : Type} (level : Level) (file : String) (line : Int)
    (func : String) (condition : σ → Bool × σ) (chain : List (Operand σ)) (w : World σ)
    (hlevel : Logger.isSupports w level = true) (hcond : (condition w.user).1 = false) :
    logIf level file line func condition chain w =
      .ok { w with
        user := (condition w.user).2,
        trace := w.trace ++ [Event.isSupports level, Event.condition false] } := by
  simp only [logIf, Logger.isSupports_record, World.record_user, hlevel, hcond]
  simp [World.record]

/-- A statement at a supported level whose condition is true ends in the call
of the stored callback on the finished record. -/
theorem logIf_of_enabled {σ : Type} (level : Level) (file : String) (line : Int)
    (func : String) (condition : σ → Bool × σ) (chain : List (Operand σ)) (w : World σ)
    (hlevel : Logger.isSupports w level = true) (hcond : (condition w.user).1 = true) :
    logIf level file line func condition chain w =
      w.callback.call
        (finishedRecord level file line func (evalOperands chain (condition w.user).2).1)
        { w with
          user := (evalOperands chain (condition w.user).2).2,
          trace := w.trace ++
            Event.isSupports level ::
              ([Event.condition true, Event.construct level file line func] ++
                (List.range chain.length).map Event.operand ++
                [Event.dispatch
                  (finishedRecord level file line func
                    (evalOperands chain (condition w.user).2).1)]) } := by
  have hrec : ∀ vs : List Value,
      (Logger.shlAll (Logger.ctor level file line func) vs).m_log =
        finishedRecord level file line func vs := by
    intro vs
    rw [Logger.shlAll_m_log]
    rfl
  simp only [logIf, Logger.isSupports_record, World.record_user, hlevel, hcond,
    Bool.not_true, Bool.false_eq_true, if_false, runChain_eq, Logger.dtor, hrec]
  simp [World.record, List.range_eq_range']

/-- A sequence of calls of `setCallback` leaves the process the last call alone leaves. -/
theorem Logger.setCallback_foldl {σ : Type} (w : World σ)
    (earlier : List (LoggerCallback σ)) (last : LoggerCallback σ) :
    (earlier ++ [last]).foldl Logger.setCallback w = Logger.setCallback w last := by
  induction earlier generalizing w with
  | nil => rfl
  | cons cb cbs ih =>
    rw [List.cons_append, List.foldl_cons, ih]
    rfl

/-! ## Claims on the callback and the gate -/

/-- C17: `Logger::setCallback` replaces the callback. After any sequence of
calls the process is the one the last call alone leaves: the stored callback
is the last argument, and the host state with the records delivered so far,
the backend writes, the history and the level are as before. An enabled
statement that follows applies the last callable, and only it, once to its
record. In the run `setCallback(store); logDbg() << "Dead Parrot";
setCallback(mark); logDbg() << "Blue";` the record stored by the first
callback is still the first record after the second statement. -/
theorem C17_setCallback_last_write_wins {σ : Type} (w : World σ)
    (earlier : List (LoggerCallback σ)) (last : LoggerCallback σ) :
    (earlier ++ [last]).foldl Logger.setCallback w = Logger.setCallback w last ∧
      (Logger.setCallback w last).callback = last ∧
      (Logger.setCallback w last).user = w.user ∧
      (Logger.setCallback w last).writes = w.writes ∧
      (Logger.setCallback w last).trace = w.trace ∧
      (Logger.setCallback w last).logLevel = w.logLevel ∧
      (∀ (level : Level) (file : String) (line : Int) (func : String)
          (condition : σ → Bool × σ) (chain : List (Operand σ)) (f : Log → σ → σ),
        last = .user f → Logger.isSupports w level = true → (condition w.user).1 = true →
        (logIf level file line func condition chain
            ((earlier ++ [last]).foldl Logger.setCallback w)).toOption.map (fun w' => w'.user) =
          some (f (finishedRecord level file line func
              (evalOperands chain (condition w.user).2).1)
            (evalOperands chain (condition w.user).2).2)) ∧
      ((logIf .Debug "test/log.cpp" 26 "test" (constCondition true)
            [fun s => (Value.string "Dead Parrot", s)]
            (Logger.setCallback initialWorld testCallback) >>= fun w1 =>
          logIf .Debug "test/log.cpp" 35 "test" (constCondition true)
            [fun s => (Value.string "Blue", s)]
            (Logger.setCallback w1 markingCallback)).toOption.map (fun w2 => w2.user) =
        some { runned := true,
               currentLog := { level := .Debug, file := "test/log.cpp", line := 26,
                               func := "test", content := "Dead Parrot" } }) := by
  refine ⟨Logger.setCallback_foldl w earlier last, rfl, rfl, rfl, rfl, rfl, ?_, ?_⟩
  · intro level file line func condition chain f hlast hlevel hcond
    rw [Logger.setCallback_foldl, hlast,
      logIf_of_enabled level file line func condition chain
        (Logger.setCallback w (LoggerCallback.user f)) hlevel hcond]
    rfl
  · decide

/-- No evaluation of an operand is a level query or an evaluation of a condition. -/
theorem operand_steps_plain (n : Nat) :
    (∀ e ∈ (List.range n).map Event.operand, e.isQuery = false) ∧
      ((List.range n).map Event.operand).countP Event.isCondition = 0 := by
  constructor
  · intro e he
    rw [List.mem_map] at he
    obtain ⟨k, _, hk⟩ := he
    rw [← hk]
    rfl
  · rw [List.countP_eq_zero]
    intro e he
    rw [List.mem_map] at he
    obtain ⟨k, _, hk⟩ := he
    rw [← hk]
    simp [Event.isCondition]

/-- C18: in `logIf(level, condition)` the level query is the first step of the
statement and is made exactly once; the condition is evaluated exactly once,
right after the query and on the host state the statement found, when the
level is enabled, and not at all when it is not: then the statement returns
with the host state untouched. The steps that follow the query are the same
whatever callback is installed; they are read in the world the statement
returns, or hands to the callback. -/
theorem C18_level_query_first_and_once {σ : Type} (level : Level) (file : String)
    (line : Int) (func : String) (condition : σ → Bool × σ) (chain : List (Operand σ))
    (w : World σ) :
    ∃ steps : List Event,
      (∀ e ∈ steps, e.isQuery = false) ∧
      steps.countP Event.isCondition = (if Logger.isSupports w level = true then 1 else 0) ∧
      (Logger.isSupports w level = true →
        steps.head? = some (Event.condition (condition w.user).1)) ∧
      (Logger.isSupports w level = false → steps = []) ∧
      ∀ callback : LoggerCallback σ, ∃ w' : World σ,
        (logIf level file line func condition chain (Logger.setCallback w callback) = .ok w' ∨
          ∃ log : Log,
            logIf level file line func condition chain (Logger.setCallback w callback) =
              callback.call log w') ∧
        w'.trace = w.trace ++ Event.isSupports level :: steps ∧
        (Logger.isSupports w level = false →
          w'.user = w.user ∧
            logIf level file line func condition chain (Logger.setCallback w callback) =
              .ok w') := by
  cases hlevel : Logger.isSupports w level
  · refine ⟨[], ?_, ?_, ?_, ?_, ?_⟩
    · intro e he
      exact absurd he (List.not_mem_nil e)
    · simp
    · intro h
      exact Bool.noConfusion h
    · intro _
      rfl
    · intro callback
      have h := logIf_of_unsupported level file line func condition chain
        (Logger.setCallback w callback) hlevel
      exact ⟨_, Or.inl h, rfl, fun _ => ⟨rfl, h⟩⟩
  · cases hcond : (condition w.user).1
    · refine ⟨[Event.condition false], ?_, ?_, ?_, ?_, ?_⟩
      · intro e he
        rw [List.mem_singleton] at he
        rw [he]
        rfl
      · simp [Event.isCondition]
      · intro _
        rfl
      · intro h
        exact Bool.noConfusion h
      · intro callback
        have h := logIf_of_condition_false level file line func condition chain
          (Logger.setCallback w callback) hlevel hcond
        exact ⟨_, Or.inl h, rfl, fun h0 => Bool.noConfusion h0⟩
    · refine ⟨[Event.condition true, Event.construct level file line func] ++
          (List.range chain.length).map Event.operand ++
          [Event.dispatch
            (finishedRecord level file line func (evalOperands chain (condition w.user).2).1)],
        ?_, ?_, ?_, ?_, ?_⟩
      · intro e he
        rw [List.mem_append, List.mem_append] at he
        rcases he with (he | he) | he
        · rw [List.mem_cons, List.mem_singleton] at he
          rcases he with he | he <;> rw [he] <;> rfl
        · exact (operand_steps_plain chain.length).1 e he
        · rw [List.mem_singleton] at he
          rw [he]
          rfl
      · rw [List.countP_append, List.countP_append, (operand_steps_plain chain.length).2]
        simp [Event.isCondition]
      · intro _
        rfl
      · intro h
        exact Bool.noConfusion h
      · intro callback
        have h := logIf_of_enabled level file line func condition chain
          (Logger.setCallback w callback) hlevel hcond
        exact ⟨_, Or.inr ⟨_, h⟩, rfl, fun h0 => Bool.noConfusion h0⟩

/-! ## Claims on the level of the logger -/

/-- C15: with the enum order `Off < Fatal < Error < Warn < Info < Debug <
Trace`, for every threshold `t` set through the `setLogLevel*` operation named
after it and every message level `l`, `Ftylog::isSupports(l)` is true exactly
when the value of `t` is greater than or equal to the value of `l`;
`log4cplusLevel` reverses the order. -/
theorem C15_supported_iff_threshold_ge {σ : Type} (w : World σ) (t l : Level) :
    (Logger.isSupports (Ftylog.setLogLevel t w) l = true ↔ l.value ≤ t.value) ∧
      (∀ a b : Level, a.value ≤ b.value ↔ log4cplusLevel b ≤ log4cplusLevel a) ∧
      (Ftylog.setLogLevel t w).logLevel = log4cplusLevel t := by
  refine ⟨?_, ?_, ?_⟩
  · cases t <;> cases l <;>
      simp [Logger.isSupports, Ftylog.setLogLevel, Ftylog.setLogLevelOff,
        Ftylog.setLogLevelFatal, Ftylog.setLogLevelError, Ftylog.setLogLevelWarning,
        Ftylog.setLogLevelInfo, Ftylog.setLogLevelDebug, Ftylog.setLogLevelTrace,
        log4cplusLevel, Level.value, OFF_LOG_LEVEL, FATAL_LOG_LEVEL, ERROR_LOG_LEVEL,
        WARN_LOG_LEVEL, INFO_LOG_LEVEL, DEBUG_LOG_LEVEL, TRACE_LOG_LEVEL]
  · intro a b
    cases a <;> cases b <;>
      simp [log4cplusLevel, Level.value, OFF_LOG_LEVEL, FATAL_LOG_LEVEL, ERROR_LOG_LEVEL,
        WARN_LOG_LEVEL, INFO_LOG_LEVEL, DEBUG_LOG_LEVEL, TRACE_LOG_LEVEL]
  · cases t <;> rfl

/-- C19: `setLogLevelFromEnvDefinite(level)` returns true exactly when `level`
is one of the seven names `LOG_TRACE`, `LOG_DEBUG`, `LOG_INFO`,
`LOG_WARNING`, `LOG_ERR`, `LOG_CRIT`, `LOG_OFF`, and then the level of the
logger becomes Trace, Debug, Info, Warn, Error, Fatal, Off respectively and
nothing else changes; for the empty string and every other string it returns
false and leaves the process unchanged. -/
theorem C19_setLogLevelFromEnvDefinite {σ : Type} (w : World σ) (level : String) :
    ((Ftylog.Impl.setLogLevelFromEnvDefinite w level).1 = true ↔
        level ∈ ["LOG_TRACE", "LOG_DEBUG", "LOG_INFO", "LOG_WARNING", "LOG_ERR", "LOG_CRIT",
          "LOG_OFF"]) ∧
      (∀ p ∈ [("LOG_TRACE", Level.Trace), ("LOG_DEBUG", Level.Debug), ("LOG_INFO", Level.Info),
            ("LOG_WARNING", Level.Warn), ("LOG_ERR", Level.Error), ("LOG_CRIT", Level.Fatal),
            ("LOG_OFF", Level.Off)],
        level = p.1 →
          (Ftylog.Impl.setLogLevelFromEnvDefinite w level).2 =
            { w with logLevel := log4cplusLevel p.2 }) ∧
      ((Ftylog.Impl.setLogLevelFromEnvDefinite w level).1 = false →
        (Ftylog.Impl.setLogLevelFromEnvDefinite w level).2 = w) ∧
      (Ftylog.Impl.setLogLevelFromEnvDefinite w "").1 = false := by
  refine ⟨?_, ?_, ?_, ?_⟩
  · unfold Ftylog.Impl.setLogLevelFromEnvDefinite
    by_cases he : level.isEmpty = true
    · have h0 : level = "" := (String.isEmpty_iff level).1 he
      subst h0
      simp [String.isEmpty]
    · simp only [he]
      split_ifs <;> simp_all
  · intro p hp hlevel
    simp only [List.mem_cons, List.mem_singleton, List.not_mem_nil, or_false] at hp
    rcases hp with hp | hp | hp | hp | hp | hp | hp <;> subst hp <;> subst hlevel <;> rfl
  · unfold Ftylog.Impl.setLogLevelFromEnvDefinite
    split_ifs <;> simp
  · rfl
